import Mathlib

/-!
Verification of the document-store core of the BUNCA HACCP logbook
repository: a JSON document store layered over a version-token ("sha")
conditioned remote contents API.

The embedding models three variants found in the source:
* `ghGetFile` / `ghPutFile` / `ghEnsureJson` / `getAllShops` / `getEntry` /
  `saveEntry` / `listEntryDates` (the express backend variant),
* `getFile` / `putFile` / `saveJSON` (the octokit backend variant),
* `GitHubStore.read` / `GitHubStore.write` (the single-file cached store).

Modelling conventions:
* JSON text is modelled at the value level: `Blob.json v` stands for the
  serialization `JSON.stringify v` of the JSON value `v` (always non-empty
  text, and `JSON.parse` recovers exactly `v` — the platform's
  stringify/parse pair is inverse on JSON-representable values);
  `Blob.raw s` stands for stored text `s` that is not valid JSON
  (`JSON.parse` throws on it). Base64 transport encoding, which the code
  round-trips through `Buffer`, is likewise absorbed into `Blob`.
* Version tokens (git blob shas) are modelled as natural numbers handed
  out by a counter; the backing API's contract is only that a fresh token
  is issued on every successful write and a conditional write succeeds
  exactly when the supplied token matches the current one.
* HTTP responses of the backing API are reified as `GetResp`, so that
  response handling can also be examined on failure statuses (5xx, 403)
  that the faithful server model itself never produces.
-/

/-- JSON values (the payloads the store reads and writes). -/
inductive Json where
  | null : Json
  | bool (b : Bool) : Json
  | num (n : Int) : Json
  | str (s : String) : Json
  | arr (xs : List Json) : Json
  | obj (fields : List (String × Json)) : Json

/-- Stored file content: either the serialization of a JSON value, or raw
text that is not valid JSON (on which `JSON.parse` throws). -/
inductive Blob where
  | json (v : Json) : Blob
  | raw (s : String) : Blob

/-- `JSON.parse` on a stored blob: succeeds exactly on serialized JSON
values (a `try { JSON.parse } catch` in the source). -/
def parseBlob : Blob → Option Json
  | .json v => some v
  | .raw _ => none

/-- JavaScript truthiness of a JSON value (used by guards such as
`if (fresh && this.cache)` and `buf ? JSON.parse(buf) : {}`). -/
def jsTruthy : Json → Bool
  | .null => false
  | .bool b => b
  | .num n => n != 0
  | .str s => s != ""
  | .arr _ => true
  | .obj _ => true

/-- Error taxonomy. The first four constructors are the failures the code
actually produces (generic thrown `Error`s, distinguished here by site);
`rateLimited`, `transportError` and `concurrentModification` are the
spec's typed error taxonomy, included so that spec-level claims about
them can be stated — the code never constructs them. -/
inductive GhError where
  | httpError (status : Nat) (body : String) : GhError
  | jsonParseError (s : String) : GhError
  | ghWriteFailed (status : Nat) (body : String) : GhError
  | dirNotFile : GhError
  | rateLimited : GhError
  | transportError : GhError
  | concurrentModification : GhError
deriving DecidableEq

/-- Kind of a directory listing entry (`type: "file" | "dir"`). -/
inductive FType where
  | file : FType
  | dir : FType
deriving DecidableEq, BEq

/-- One entry of a directory listing returned by the contents API. -/
structure DirEnt where
  name : String
  type : FType
deriving DecidableEq, BEq

/-- What `ghGetFile` yields on a 200 response: a file (sha + content) or a
directory listing (the API returns a JSON array for directories). -/
inductive GhGot where
  | file (sha : Nat) (content : Blob) : GhGot
  | dir (entries : List DirEnt) : GhGot

/-- A reified HTTP response of `GET /contents/{path}`. -/
inductive GetResp where
  | okFile (content : Blob) (sha : Nat) : GetResp
  | okDir (entries : List DirEnt) : GetResp
  | notFound : GetResp
  | httpError (status : Nat) (body : String) : GetResp

/-- The remote repository contents: an association list from path to
(content, sha), plus the counter that issues fresh shas. -/
structure Remote where
  files : List (String × Blob × Nat)
  nextSha : Nat

/-- Association-list lookup (first match wins). -/
def lookupA : List (String × Blob × Nat) → String → Option (Blob × Nat)
  | [], _ => none
  | (q, v) :: rest, p => if q = p then some v else lookupA rest p

/-- Current (content, sha) of the file at `p`, if any. -/
def lookupFile (rm : Remote) (p : String) : Option (Blob × Nat) :=
  lookupA rm.files p

/-- Replace the binding for `p` in place, or append it. -/
def updateA : List (String × Blob × Nat) → String → Blob × Nat → List (String × Blob × Nat)
  | [], p, v => [(p, v)]
  | (q, w) :: rest, p, v =>
    if q = p then (p, v) :: rest else (q, w) :: updateA rest p v

/-- Commit new content at `p`: the file now holds `b` under the freshly
issued sha `rm.nextSha`. -/
def setFile (rm : Remote) (p : String) (b : Blob) : Remote :=
  ⟨updateA rm.files p (b, rm.nextSha), rm.nextSha + 1⟩

/-- Does any stored file live strictly below path `p`? (Then `p` denotes a
directory in the repository.) -/
def hasChild (rm : Remote) (p : String) : Bool :=
  rm.files.any (fun e => (p ++ "/").data.isPrefixOf e.1.data)

/-- The listing entry that a stored path `q` below the directory
contributes, given the length of the directory's path plus the slash. -/
def childEntry (pfxLen : Nat) (q : String) : DirEnt :=
  let rest := q.data.drop pfxLen
  if rest.contains '/' then
    ⟨⟨rest.takeWhile (fun c => !(c == '/'))⟩, .dir⟩
  else
    ⟨⟨rest⟩, .file⟩

/-- Directory listing of `p`: immediate children of `p`, each once. -/
def childEntries (rm : Remote) (p : String) : List DirEnt :=
  ((rm.files.filter (fun e => (p ++ "/").data.isPrefixOf e.1.data)).map
    (fun e => childEntry (p ++ "/").data.length e.1)).dedup

/-- The faithful backing server's `GET /contents/{path}`: 200 with content
and sha for a stored file, 200 with a listing for a directory, else 404. -/
def serveGet (rm : Remote) (p : String) : GetResp :=
  match lookupFile rm p with
  | some (b, sha) => .okFile b sha
  | none => if hasChild rm p then .okDir (childEntries rm p) else .notFound

/-- The backing server's `PUT /contents/{path}`: a conditional write.
With a supplied sha it succeeds iff the sha matches the file's current
sha (else 409); without one it succeeds iff the file does not exist yet
(else 422, sha required). On success a fresh sha is issued. -/
def servePut (rm : Remote) (p : String) (b : Blob) (sha? : Option Nat) :
    Except (Nat × String) (Remote × Nat) :=
  match lookupFile rm p, sha? with
  | some (_, cur), some s =>
    if s = cur then .ok (setFile rm p b, rm.nextSha)
    else .error (409, "does not match")
  | some _, none => .error (422, "sha required")
  | none, none => .ok (setFile rm p b, rm.nextSha)
  | none, some _ => .error (422, "no file at path")

/-!
## Express backend variant (`ghGetFile` and friends)
-/

/-- Response handling of `ghGetFile`: 404 yields `null` (here `none`);
any other non-ok status throws the response text (a generic error, not a
typed transport/rate-limit failure, and with no retry — this is the
single fetch the function performs); a 200 yields either the decoded file
(sha + content) or, for a directory path, the listing array. -/
def ghGetFileR : GetResp → Except GhError (Option GhGot)
  | .okFile b sha => .ok (some (.file sha b))
  | .okDir es => .ok (some (.dir es))
  | .notFound => .ok none
  | .httpError s body => .error (.httpError s body)

/-- `ghGetFile(path)`: one GET against the backing API. -/
def ghGetFile (rm : Remote) (p : String) : Except GhError (Option GhGot) :=
  ghGetFileR (serveGet rm p)

/-- `ghPutFile(path, contentStr, message)`: fetch the file's current sha
immediately before the PUT (`const existing = await ghGetFile(path)`),
attach it when present (`if (existing && existing.sha) body.sha = ...`;
a directory listing has no `.sha`), then PUT. A failed PUT throws the
response text. The commit `message` only decorates the commit; it does
not influence the result. On success, returns the updated remote and the
newly issued sha. -/
def ghPutFile (rm : Remote) (p : String) (b : Blob) (message : String) :
    Except GhError (Remote × Nat) :=
  match ghGetFile rm p with
  | .error e => .error e
  | .ok existing =>
    let sha? : Option Nat :=
      match existing with
      | some (.file sha _) => some sha
      | _ => none
    match servePut rm p b sha? with
    | .ok (rm', newSha) =>
      -- the unused binder records that `message` is accepted and ignored
      let _ := message
      .ok (rm', newSha)
    | .error (status, text) => .error (.ghWriteFailed status text)

/-- `ghEnsureJson(path, fallbackObj)`: read the file; if absent, create it
with the serialized fallback and return the fallback; if present but its
content fails `JSON.parse` (including the directory-listing case, where
`JSON.parse(undefined)` throws), overwrite it with the serialized
fallback and return the fallback; otherwise return the parsed content. -/
def ghEnsureJson (rm : Remote) (p : String) (fb : Json) :
    Except GhError (Json × Remote) :=
  match ghGetFile rm p with
  | .error e => .error e
  | .ok none =>
    match ghPutFile rm p (.json fb) ("Create " ++ p) with
    | .ok (rm', _) => .ok (fb, rm')
    | .error e => .error e
  | .ok (some (.file _ b)) =>
    match parseBlob b with
    | some j => .ok (j, rm)
    | none =>
      match ghPutFile rm p (.json fb) ("Reset " ++ p) with
      | .ok (rm', _) => .ok (fb, rm')
      | .error e => .error e
  | .ok (some (.dir _)) =>
    match ghPutFile rm p (.json fb) ("Reset " ++ p) with
    | .ok (rm', _) => .ok (fb, rm')
    | .error e => .error e

/-- The default shop record pushed by `getAllShops` when the shop index is
empty. `freshId` stands for the random `nanoid(8)` and `shopName` for the
`DEFAULT_SHOP` environment value, both inputs the code does not compute. -/
def defaultShopJson (freshId shopName : String) : Json :=
  .obj [("id", .str freshId), ("name", .str shopName), ("city", .str ""),
        ("address", .str ""), ("active", .bool true)]

/-- The default template document written for the default shop. -/
def defaultTemplate : Json :=
  .obj [
    ("items", .arr [
      .obj [("id", .str "fridge1"), ("label", .str "Kühlschrank 1"),
            ("type", .str "number"), ("unit", .str "°C"),
            ("rule", .str "range"), ("min", .num 0), ("max", .num 7)],
      .obj [("id", .str "fridge2"), ("label", .str "Kühlschrank 2"),
            ("type", .str "number"), ("unit", .str "°C"),
            ("rule", .str "range"), ("min", .num 0), ("max", .num 7)],
      .obj [("id", .str "freezer"), ("label", .str "Tiefkühler"),
            ("type", .str "number"), ("unit", .str "°C"),
            ("rule", .str "max"), ("max", .num (-18))],
      .obj [("id", .str "oven"),
            ("label", .str "Ofen/Backstation Betriebstemp"),
            ("type", .str "number"), ("unit", .str "°C"),
            ("rule", .str "min"), ("min", .num 180)]]),
    ("cleaning", .arr [
      .obj [("id", .str "task_surfaces"),
            ("task", .str "Arbeitsflächen desinfizieren"),
            ("freq", .str "täglich"), ("area", .str "Küche")],
      .obj [("id", .str "task_sink"),
            ("task", .str "Spülbecken & Armaturen reinigen"),
            ("freq", .str "täglich"), ("area", .str "Spüle")]])]

/-- `!shops.length`: true for the empty array and for any non-array value
(whose `.length` is `undefined`, hence falsy). -/
def jsonArrEmpty : Json → Bool
  | .arr (_ :: _) => false
  | _ => true

/-- `shops.push(defaultShop)` on the array case (the only case the
theorems exercise; on a non-array JavaScript would throw). -/
def jsonArrPush (j : Json) (s : Json) : Json :=
  match j with
  | .arr l => .arr (l ++ [s])
  | _ => .arr [s]

/-- `getAllShops()`: ensure `data/shops.json` exists (fallback `[]`); if
the index is empty, push a default shop, rewrite the index, create the
default template for that shop, and return the one-entry index. -/
def getAllShops (rm : Remote) (freshId shopName : String) :
    Except GhError (Json × Remote) :=
  match ghEnsureJson rm "data/shops.json" (.arr []) with
  | .error e => .error e
  | .ok (shops, rm1) =>
    if jsonArrEmpty shops then
      let shop := defaultShopJson freshId shopName
      let shops' := jsonArrPush shops shop
      match ghPutFile rm1 "data/shops.json" (.json shops') "Init shops.json" with
      | .error e => .error e
      | .ok (rm2, _) =>
        match ghPutFile rm2 ("data/templates/" ++ freshId ++ ".json")
            (.json defaultTemplate) "Init default template" with
        | .error e => .error e
        | .ok (rm3, _) => .ok (shops', rm3)
    else .ok (shops, rm1)

/-- Path of the daily entry document of `shopId` at `dateStr`. -/
def entryPath (shopId dateStr : String) : String :=
  "data/entries/" ++ shopId ++ "/" ++ dateStr ++ ".json"

/-- `getEntry(shopId, dateStr)`: read the entry file; `null` when absent;
otherwise `JSON.parse` the content (throws on unparseable content, and on
a directory listing, where `.content` is `undefined`). -/
def getEntry (rm : Remote) (shopId dateStr : String) :
    Except GhError (Option Json) :=
  match ghGetFile rm (entryPath shopId dateStr) with
  | .error e => .error e
  | .ok none => .ok none
  | .ok (some (.file _ b)) =>
    match parseBlob b with
    | some j => .ok (some j)
    | none => .error (.jsonParseError "entry")
  | .ok (some (.dir _)) => .error (.jsonParseError "undefined")

/-- `saveEntry(shopId, dateStr, entry)`: serialize and `ghPutFile`. -/
def saveEntry (rm : Remote) (shopId dateStr : String) (entry : Json) :
    Except GhError Remote :=
  match ghPutFile rm (entryPath shopId dateStr) (.json entry)
      ("Save entry " ++ shopId ++ "/" ++ dateStr) with
  | .ok (rm', _) => .ok rm'
  | .error e => .error e

/-- `name.endsWith('.json')`. -/
def endsWithDotJson (name : String) : Bool :=
  ".json".data.isSuffixOf name.data

/-- Strip a pattern prefix from a character list: `some` of the remainder
iff the list starts with the pattern. -/
def dropPat : List Char → List Char → Option (List Char)
  | [], l => some l
  | _ :: _, [] => none
  | a :: pat, c :: l => if c = a then dropPat pat l else none

/-- Split a character list at the first occurrence of the pattern:
`some (before, after)` with the occurrence removed, scanning left to
right — the semantics of JavaScript `String.prototype.replace` with a
plain-string pattern. -/
def splitFirst (pat : List Char) : List Char → Option (List Char × List Char)
  | [] =>
    match dropPat pat [] with
    | some r => some ([], r)
    | none => none
  | c :: cs =>
    match dropPat pat (c :: cs) with
    | some rest => some ([], rest)
    | none =>
      match splitFirst pat cs with
      | some (pre, post) => some (c :: pre, post)
      | none => none

/-- `name.replace('.json', '')`: remove the FIRST occurrence of `".json"`
(not necessarily the suffix — JavaScript's `replace` with a string
pattern replaces only the first match). -/
def stripDotJson (name : String) : String :=
  match splitFirst ".json".data name.data with
  | some (pre, post) => ⟨pre ++ post⟩
  | none => name

/-- The keys `listEntryDates` derives before sorting: names of the `.json`
files in the shop's entries directory, each with its first `".json"`
occurrence removed. Empty whenever the listing is not a directory array. -/
def entryKeysRaw (rm : Remote) (shopId : String) : List String :=
  match ghGetFile rm ("data/entries/" ++ shopId) with
  | .ok (some (.dir es)) =>
    (es.filter (fun e => (e.type == FType.file) && endsWithDotJson e.name)).map
      (fun e => stripDotJson e.name)
  | _ => []

/-- `listEntryDates(shopId)`: list the entries directory (absent or
non-array results give `[]`), keep the `.json` files, strip the
extension, `sort()` ascending (JavaScript's default lexicographic string
sort, modelled by the stable `insertionSort`) and `reverse()`. -/
def listEntryDates (rm : Remote) (shopId : String) : List String :=
  match ghGetFile rm ("data/entries/" ++ shopId) with
  | .ok (some (.dir es)) =>
    (((es.filter (fun e => (e.type == FType.file) && endsWithDotJson e.name)).map
      (fun e => stripDotJson e.name)).insertionSort (· ≤ ·)).reverse
  | _ => []

/-!
## Octokit backend variant (`getFile` / `putFile` / `saveJSON`)
-/

/-- Response handling of the octokit variant's `getFile`: a 404 thrown by
octokit is caught and yields `null`; a directory listing throws
`"Expected file, got directory"`; any other octokit error is rethrown. -/
def getFileR : GetResp → Except GhError (Option (Blob × Nat))
  | .okFile b sha => .ok (some (b, sha))
  | .okDir _ => .error .dirNotFile
  | .notFound => .ok none
  | .httpError s body => .error (.httpError s body)

/-- `getFile(filePath)` of the octokit variant. -/
def getFile (rm : Remote) (p : String) : Except GhError (Option (Blob × Nat)) :=
  getFileR (serveGet rm p)

/-- `putFile(filePath, content, message, sha)`: one
`createOrUpdateFileContents` call, conditioned on the supplied sha. -/
def putFile (rm : Remote) (p : String) (b : Blob) (message : String)
    (sha? : Option Nat) : Except GhError (Remote × Nat) :=
  match servePut rm p b sha? with
  | .ok (rm', newSha) =>
    let _ := message
    .ok (rm', newSha)
  | .error (status, text) => .error (.ghWriteFailed status text)

/-- `saveJSON(filePath, obj, message)`: fetch the file's current sha
immediately before the PUT (`const existing = await getFile(filePath)`)
and write the serialized object conditioned on that fresh sha
(`existing?.sha`). The appended newline of
`JSON.stringify(obj, null, 2) + "\n"` is whitespace that `JSON.parse`
ignores, so it is absorbed into `Blob.json`. -/
def saveJSON (rm : Remote) (p : String) (obj : Json) (message : String) :
    Except GhError Remote :=
  match getFile rm p with
  | .error e => .error e
  | .ok existing =>
    match putFile rm p (.json obj) message (existing.map (·.2)) with
    | .ok (rm', _) => .ok rm'
    | .error e => .error e

/-- Modelled from the spec (for the refinement claim about `saveJSON` /
`ghPutFile`): the unconditional last-writer-wins overwrite — store the
caller's precomputed content at the path regardless of any concurrent
revision, issuing a fresh version token. -/
def overwriteSpec (rm : Remote) (p : String) (v : Json) : Remote :=
  setFile rm p (.json v)

/-!
## Single-file cached store (`GitHubStore`)
-/

/-- The mutable fields of a `GitHubStore` instance: the sha of the last
content read or written (`lastSha`), the cached parsed database
(`cache`), and the time of the last cache fill (`cacheTs`). -/
structure Store where
  lastSha : Option Nat
  cache : Option Json
  cacheTs : Nat

/-- The single backing file of a `GitHubStore` (`store/db.json`):
the file's current (content, sha) if it exists, plus the sha counter. -/
structure SingleRemote where
  file : Option (Blob × Nat)
  nextSha : Nat

/-- `GET` of the single backing file. -/
def serveGet1 (rm : SingleRemote) : GetResp :=
  match rm.file with
  | some (b, sha) => .okFile b sha
  | none => .notFound

/-- Conditional `PUT` of the single backing file (same contract as
`servePut`). -/
def servePut1 (rm : SingleRemote) (b : Blob) (sha? : Option Nat) :
    Except (Nat × String) (SingleRemote × Nat) :=
  match rm.file, sha? with
  | some (_, cur), some s =>
    if s = cur then .ok (⟨some (b, rm.nextSha), rm.nextSha + 1⟩, rm.nextSha)
    else .error (409, "does not match")
  | some _, none => .error (422, "sha required")
  | none, none => .ok (⟨some (b, rm.nextSha), rm.nextSha + 1⟩, rm.nextSha)
  | none, some _ => .error (422, "no file at path")

/-- The default database `GitHubStore.read` creates when the GET does not
return 200: `{ users: [], shops: [], entries: {} }`. -/
def initDb : Json :=
  .obj [("users", .arr []), ("shops", .arr []), ("entries", .obj [])]

/-- `GitHubStore.write(data, message)`: serialize `data`, PUT it
conditioned on the remembered `this.lastSha` (or unconditionally when
none is remembered), and on a non-ok response throw
`GitHub write failed: <status> <text>` — a single PUT attempt, no retry.
On success, remember the new sha and replace the cache with `data`.
Returns `data`. -/
def GitHubStore.write (data : Json) (st : Store) (rm : SingleRemote)
    (now : Nat) : Except GhError (Json × Store × SingleRemote) :=
  match servePut1 rm (.json data) st.lastSha with
  | .ok (rm', newSha) => .ok (data, ⟨some newSha, some data, now⟩, rm')
  | .error (status, text) =>
    .error (.ghWriteFailed status ("GitHub write failed: "
      ++ toString status ++ " " ++ text))

/-- `buf ? JSON.parse(buf) : {}` on the fetched, base64-decoded content:
empty text yields `{}`, serialized JSON parses back, any other text makes
`JSON.parse` throw. -/
def decodeBuf : Blob → Except GhError Json
  | .json v => .ok v
  | .raw s => if s = "" then .ok (.obj []) else .error (.jsonParseError s)

/-- The cache-miss path of `GitHubStore.read`, given the GET response:
on 200 decode the content, remember `j.sha`, fill the cache and return
the parsed database; on ANY other status (404 and transient failures
alike — the code only tests `r.status === 200`) write the default
database through `GitHubStore.write` and return it. A 200 directory
listing would make `Buffer.from(undefined)` throw. -/
def GitHubStore.readFetch (resp : GetResp) (st : Store) (rm : SingleRemote)
    (now : Nat) : Except GhError (Json × Store × SingleRemote) :=
  match resp with
  | .okFile b sha =>
    match decodeBuf b with
    | .ok j => .ok (j, ⟨some sha, some j, now⟩, rm)
    | .error e => .error e
  | .okDir _ => .error .dirNotFile
  | _ =>
    match GitHubStore.write initDb st rm now with
    | .ok (_, st', rm') => .ok (initDb, st', rm')
    | .error e => .error e

/-- The read guard `fresh && this.cache`: the cache was filled less than
5000 ms ago and holds a truthy value. -/
def cacheFresh (st : Store) (now : Nat) : Bool :=
  decide (now - st.cacheTs < 5000) &&
    (match st.cache with
     | some c => jsTruthy c
     | none => false)

/-- `GitHubStore.read()` with the GET response as a parameter: return the
cached database when fresh, otherwise run the fetch path. -/
def GitHubStore.readR (resp : GetResp) (st : Store) (rm : SingleRemote)
    (now : Nat) : Except GhError (Json × Store × SingleRemote) :=
  match st.cache with
  | some c =>
    if decide (now - st.cacheTs < 5000) && jsTruthy c then .ok (c, st, rm)
    else GitHubStore.readFetch resp st rm now
  | none => GitHubStore.readFetch resp st rm now

/-- `GitHubStore.read()` against the faithful backing server. -/
def GitHubStore.read (st : Store) (rm : SingleRemote) (now : Nat) :
    Except GhError (Json × Store × SingleRemote) :=
  GitHubStore.readR (serveGet1 rm) st rm now

/-- A writer's mutation function for the concurrency scenarios: append one
field to a JSON object (leaving non-objects unchanged). Two writers with
different fields model two independent edits of the same document. -/
def setFieldJson (k : String) (v : Json) : Json → Json
  | .obj fs => .obj (fs ++ [(k, v)])
  | j => j

/-!
## Helper lemmas
-/

theorem lookupA_updateA_self (l : List (String × Blob × Nat)) (p : String)
    (v : Blob × Nat) : lookupA (updateA l p v) p = some v := by
  induction l with
  | nil => simp [updateA, lookupA]
  | cons hd tl ih =>
    obtain ⟨q, w⟩ := hd
    by_cases hq : q = p
    · simp [updateA, lookupA, hq]
    · simp [updateA, lookupA, hq, ih]

theorem lookupA_updateA_ne (l : List (String × Blob × Nat)) (p q : String)
    (v : Blob × Nat) (h : q ≠ p) :
    lookupA (updateA l p v) q = lookupA l q := by
  induction l with
  | nil => simp [updateA, lookupA, Ne.symm h]
  | cons hd tl ih =>
    obtain ⟨r, w⟩ := hd
    by_cases hr : r = p
    · subst hr
      simp [updateA, lookupA, Ne.symm h]
    · simp [updateA, lookupA, hr, ih]

theorem lookupFile_setFile_self (rm : Remote) (p : String) (b : Blob) :
    lookupFile (setFile rm p b) p = some (b, rm.nextSha) := by
  simp [lookupFile, setFile, lookupA_updateA_self]

theorem lookupFile_setFile_ne (rm : Remote) (p q : String) (b : Blob)
    (h : q ≠ p) : lookupFile (setFile rm p b) q = lookupFile rm q := by
  simp [lookupFile, setFile, lookupA_updateA_ne _ _ _ _ h]

/-- `ghPutFile` always succeeds against the faithful server and acts as an
unconditional overwrite: it fetches the current sha right before the PUT,
so the conditional write's condition is always met. -/
theorem ghPutFile_ok (rm : Remote) (p : String) (b : Blob) (m : String) :
    ghPutFile rm p b m = .ok (setFile rm p b, rm.nextSha) := by
  unfold ghPutFile ghGetFile serveGet
  cases hl : lookupFile rm p with
  | some v =>
    obtain ⟨b0, sha⟩ := v
    simp [ghGetFileR, servePut, hl]
  | none =>
    cases hd : hasChild rm p <;> simp [ghGetFileR, servePut, hl, hd]

theorem serveGet_of_lookup {rm : Remote} {p : String} {b : Blob} {sha : Nat}
    (h : lookupFile rm p = some (b, sha)) : serveGet rm p = .okFile b sha := by
  simp [serveGet, h]

/-- `ghEnsureJson` on an absent file creates it from the fallback. -/
theorem ghEnsureJson_absent {rm : Remote} {p : String} (fb : Json)
    (h : serveGet rm p = .notFound) :
    ghEnsureJson rm p fb = .ok (fb, setFile rm p (.json fb)) := by
  unfold ghEnsureJson ghGetFile
  rw [h]
  simp [ghGetFileR, ghPutFile_ok]

/-- `ghEnsureJson` on a present, parseable file returns its content and
leaves the remote unchanged. -/
theorem ghEnsureJson_parsed {rm : Remote} {p : String} {j : Json} {sha : Nat}
    (fb : Json) (h : lookupFile rm p = some (.json j, sha)) :
    ghEnsureJson rm p fb = .ok (j, rm) := by
  unfold ghEnsureJson ghGetFile
  rw [serveGet_of_lookup h]
  simp [ghGetFileR, parseBlob]

/-- Shape of a successful conditional PUT of the single backing file. -/
theorem servePut1_ok {rm : SingleRemote} {b : Blob} {sha? : Option Nat}
    {rm' : SingleRemote} {ns : Nat} (h : servePut1 rm b sha? = .ok (rm', ns)) :
    rm' = ⟨some (b, rm.nextSha), rm.nextSha + 1⟩ ∧ ns = rm.nextSha := by
  unfold servePut1 at h
  cases hf : rm.file <;> cases sha? <;> rw [hf] at h <;> simp at h
  · exact ⟨h.1.symm, h.2.symm⟩
  · rename_i cur s
    obtain ⟨bc, curSha⟩ := cur
    by_cases hs : s = curSha
    · simp [hs] at h
      exact ⟨h.1.symm, h.2.symm⟩
    · simp [hs] at h

/-- Shape of a successful `GitHubStore.write`: the cache is replaced with
the written data, the new sha is remembered, and the backing file now
holds the serialized data under the fresh sha. -/
theorem GitHubStore.write_ok {data : Json} {st : Store} {rm : SingleRemote}
    {now : Nat} {d' : Json} {st' : Store} {rm' : SingleRemote}
    (h : GitHubStore.write data st rm now = .ok (d', st', rm')) :
    d' = data ∧ st' = ⟨some rm.nextSha, some data, now⟩ ∧
      rm' = ⟨some (.json data, rm.nextSha), rm.nextSha + 1⟩ := by
  unfold GitHubStore.write at h
  cases hp : servePut1 rm (.json data) st.lastSha with
  | ok x =>
    obtain ⟨rm2, ns⟩ := x
    obtain ⟨hrm2, hns⟩ := servePut1_ok hp
    rw [hp] at h
    simp at h
    subst hrm2 hns
    exact ⟨h.1.symm, h.2.1.symm, h.2.2.symm⟩
  | error e =>
    obtain ⟨status, text⟩ := e
    rw [hp] at h
    simp at h

/-!
## Claim theorems
-/

/-- C9: every write through `saveJSON` / `ghPutFile` fetches the current
version token immediately before the PUT and supplies that fresh token,
so against the backing server it is equivalent to the spec-level
unconditional overwrite with the caller's precomputed content and never
fails because of an update committed before the call (last writer wins).
For `saveJSON` the path must not denote a directory (then `getFile`
throws `Expected file, got directory`, which is not a conflict failure). -/
theorem saveJSON_refines_unconditional_overwrite (rm : Remote) (p : String)
    (v : Json) (m1 m2 : String)
    (hnd : ∀ es, serveGet rm p ≠ GetResp.okDir es) :
    saveJSON rm p v m1 = .ok (overwriteSpec rm p v) ∧
    ghPutFile rm p (.json v) m2 = .ok (overwriteSpec rm p v, rm.nextSha) := by
  constructor
  · unfold saveJSON getFile
    cases hl : lookupFile rm p with
    | some w =>
      obtain ⟨b0, sha⟩ := w
      rw [serveGet_of_lookup hl]
      simp [getFileR, putFile, servePut, hl, overwriteSpec]
    | none =>
      cases hd : hasChild rm p with
      | true => exact absurd (by simp [serveGet, hl, hd]) (hnd (childEntries rm p))
      | false =>
        have hg : serveGet rm p = .notFound := by simp [serveGet, hl, hd]
        rw [hg]
        simp [getFileR, putFile, servePut, hl, overwriteSpec]
  · simpa [overwriteSpec] using ghPutFile_ok rm p (.json v) m2

/-- C9 witness: a concrete write through `saveJSON` lands exactly as the
unconditional overwrite. -/
theorem saveJSON_refines_unconditional_overwrite_witness :
    saveJSON ⟨[], 5⟩ "data/users.json" (.arr [.num 1]) "m" =
      .ok (overwriteSpec ⟨[], 5⟩ "data/users.json" (.arr [.num 1])) :=
  (saveJSON_refines_unconditional_overwrite ⟨[], 5⟩ "data/users.json"
    (.arr [.num 1]) "m" "m2"
    (fun es h => by simp [serveGet, lookupFile, lookupA, hasChild] at h)).1

/-- C10: when the stored file exists but its content is not parseable as
JSON, `ghEnsureJson` overwrites the document with the serialized fallback
and returns the fallback; no parse failure is surfaced and the corrupt
content is replaced. -/
theorem ghEnsureJson_resets_corrupt (rm : Remote) (p : String) (s : String)
    (sha : Nat) (fb : Json) (h : lookupFile rm p = some (.raw s, sha)) :
    ghEnsureJson rm p fb = .ok (fb, setFile rm p (.json fb)) ∧
    lookupFile (setFile rm p (.json fb)) p = some (.json fb, rm.nextSha) := by
  constructor
  · unfold ghEnsureJson ghGetFile
    rw [serveGet_of_lookup h]
    simp [ghGetFileR, parseBlob, ghPutFile_ok]
  · exact lookupFile_setFile_self rm p (.json fb)

/-- C10 witness: a concrete corrupt file is reset to the fallback. -/
theorem ghEnsureJson_resets_corrupt_witness :
    ghEnsureJson ⟨[("data/shops.json", .raw "not valid json", 3)], 4⟩
        "data/shops.json" (.arr []) =
      .ok (.arr [], setFile ⟨[("data/shops.json", .raw "not valid json", 3)], 4⟩
        "data/shops.json" (.json (.arr []))) :=
  (ghEnsureJson_resets_corrupt ⟨[("data/shops.json", .raw "not valid json", 3)], 4⟩
    "data/shops.json" "not valid json" 3 (.arr []) rfl).1

/-- C6: for every shop, date and JSON value, saving the entry and then
reading it back returns exactly that value (round trip through
`saveEntry` / `getEntry`). -/
theorem saveEntry_getEntry_roundtrip (rm : Remote) (shopId dateStr : String)
    (v : Json) :
    saveEntry rm shopId dateStr v =
      .ok (setFile rm (entryPath shopId dateStr) (.json v)) ∧
    getEntry (setFile rm (entryPath shopId dateStr) (.json v)) shopId dateStr =
      .ok (some v) := by
  constructor
  · unfold saveEntry
    rw [ghPutFile_ok]
  · unfold getEntry ghGetFile
    rw [serveGet_of_lookup (lookupFile_setFile_self rm (entryPath shopId dateStr) (.json v))]
    simp [ghGetFileR, parseBlob]

/-- C1 counterexample: the document starts at version V1 (sha 0, content
`{}`). Writer A commits its mutation (add field `a`), producing V2.
Writer B, who also read V1, then commits the content it precomputed from
V1 (add field `b`). Contrary to the claim, B's first attempt does NOT
fail with a conflict — `ghPutFile` refetches the current sha and the
write succeeds — and the committed content is B's mutation of V1, not
B's mutation applied to A's result: A's update is silently lost. -/
theorem ghPutFile_lost_update_counterexample :
    (ghPutFile ⟨[("data/entries/s/2025-01-10.json", .json (.obj []), 0)], 1⟩
        "data/entries/s/2025-01-10.json"
        (.json (setFieldJson "a" (.num 1) (.obj []))) "A save" =
      .ok (⟨[("data/entries/s/2025-01-10.json",
              .json (.obj [("a", .num 1)]), 1)], 2⟩, 1)) ∧
    (ghPutFile ⟨[("data/entries/s/2025-01-10.json",
              .json (.obj [("a", .num 1)]), 1)], 2⟩
        "data/entries/s/2025-01-10.json"
        (.json (setFieldJson "b" (.num 2) (.obj []))) "B save" =
      .ok (⟨[("data/entries/s/2025-01-10.json",
              .json (.obj [("b", .num 2)]), 2)], 3⟩, 2)) ∧
    Json.obj [("b", .num 2)] ≠
      setFieldJson "b" (.num 2) (setFieldJson "a" (.num 1) (.obj [])) := by
  refine ⟨rfl, rfl, ?_⟩
  simp [setFieldJson]

/-- C1 amended: when the document exists at some version V1 and each
writer PUTs content it precomputed from its own earlier read, both writes
through `ghPutFile` succeed — `ghPutFile` refetches the current sha
immediately before each PUT, so neither write fails with a conflict —
and the final committed content is the second writer's precomputed
content: the first writer's update is silently overwritten (last writer
wins). `GitHubStore.write`, by contrast, PUTs under its remembered stale
sha and on conflict throws a generic error without re-fetching,
re-applying or retrying (see the C2 theorems). -/
theorem ghPutFile_last_writer_wins (rm : Remote) (p : String) (b0 : Blob)
    (sha0 : Nat) (cA cB : Blob) (mA mB : String)
    (_hV1 : lookupFile rm p = some (b0, sha0)) :
    ghPutFile rm p cA mA = .ok (setFile rm p cA, rm.nextSha) ∧
    ghPutFile (setFile rm p cA) p cB mB =
      .ok (setFile (setFile rm p cA) p cB, (setFile rm p cA).nextSha) ∧
    lookupFile (setFile (setFile rm p cA) p cB) p =
      some (cB, (setFile rm p cA).nextSha) :=
  ⟨ghPutFile_ok rm p cA mA, ghPutFile_ok (setFile rm p cA) p cB mB,
    lookupFile_setFile_self (setFile rm p cA) p cB⟩

/-- C1 amended witness: the two-writer scenario at a concrete document. -/
theorem ghPutFile_last_writer_wins_witness :
    lookupFile (setFile (setFile ⟨[("data/shops.json", .json .null, 0)], 1⟩
        "data/shops.json" (.json (.num 1))) "data/shops.json" (.json (.num 2)))
      "data/shops.json" =
    some (.json (.num 2),
      (setFile ⟨[("data/shops.json", .json .null, 0)], 1⟩
        "data/shops.json" (.json (.num 1))).nextSha) :=
  (ghPutFile_last_writer_wins ⟨[("data/shops.json", .json .null, 0)], 1⟩
    "data/shops.json" (.json .null) 0 (.json (.num 1)) (.json (.num 2))
    "A" "B" rfl).2.2

/-- C2 counterexample: a write whose remembered sha is stale (the document
moved from sha 0 to sha 1) terminates after its single PUT attempt with
the generic thrown error `GitHub write failed: 409 ...` — not with a
distinguished `ConcurrentModification` failure as the claim states. -/
theorem write_conflict_generic_error_counterexample :
    GitHubStore.write (.obj []) ⟨some 0, none, 0⟩
        ⟨some (.json .null, 1), 2⟩ 7 =
      .error (.ghWriteFailed 409
        ("GitHub write failed: " ++ toString 409 ++ " " ++ "does not match")) ∧
    GhError.ghWriteFailed 409
        ("GitHub write failed: " ++ toString 409 ++ " " ++ "does not match") ≠
      GhError.concurrentModification := by
  exact ⟨rfl, by simp⟩

/-- C2 amended: `GitHubStore.write` performs exactly one conditional PUT
and always terminates; under a conflict (its remembered `lastSha` is
stale) it stops immediately and fails with the generic
`GitHub write failed: 409 ...` error — there is no retry loop, no bound
of 3 attempts, and no `ConcurrentModification` error type. -/
theorem write_single_attempt_conflict (d : Json) (st : Store)
    (rm : SingleRemote) (now : Nat) (s cur : Nat) (b : Blob)
    (hs : st.lastSha = some s) (hf : rm.file = some (b, cur))
    (hne : s ≠ cur) :
    ∃ msg, GitHubStore.write d st rm now = .error (.ghWriteFailed 409 msg) := by
  have hw : GitHubStore.write d st rm now = .error (.ghWriteFailed 409
      ("GitHub write failed: " ++ toString 409 ++ " " ++ "does not match")) := by
    unfold GitHubStore.write servePut1
    rw [hf, hs]
    simp [hne]
  exact ⟨_, hw⟩

/-- C2 amended witness: a concrete conflicting write fails at once with
the generic 409 error. -/
theorem write_single_attempt_conflict_witness :
    ∃ msg, GitHubStore.write (.obj []) ⟨some 3, none, 0⟩
        ⟨some (.json .null, 4), 5⟩ 11 = .error (.ghWriteFailed 409 msg) :=
  write_single_attempt_conflict (.obj []) ⟨some 3, none, 0⟩
    ⟨some (.json .null, 4), 5⟩ 11 3 4 (.json .null) rfl rfl (by decide)

/-- C3 amended: `ghGetFile`'s response handling returns the file's content
and version token on 200, `null` (NotFound) on 404, and on every other
status throws a generic error carrying the response text immediately, on
its single fetch — no retry, no backoff, and no distinguished
`RateLimited` or `TransportError` type; a transport-level failure (a
thrown error) is never reported the same way as a missing document
(`null`). -/
theorem ghGetFileR_characterization :
    (∀ (b : Blob) (sha : Nat),
      ghGetFileR (.okFile b sha) = .ok (some (.file sha b))) ∧
    ghGetFileR .notFound = .ok none ∧
    (∀ es, ghGetFileR (.okDir es) = .ok (some (.dir es))) ∧
    (∀ s body, ghGetFileR (.httpError s body) = .error (.httpError s body)) ∧
    (∀ s body, ghGetFileR (.httpError s body) ≠ .ok none) := by
  refine ⟨fun b sha => rfl, rfl, fun es => rfl, fun s body => rfl,
    fun s body h => ?_⟩
  simp [ghGetFileR] at h

/-- C3 counterexample: on a rate-limit response (403) `ghGetFile` throws
the generic response-text error, not a `RateLimited` failure, and on a
500 it throws immediately on the first and only attempt, not a
`TransportError` after retries with backoff. -/
theorem ghGetFileR_untyped_errors_counterexample :
    ghGetFileR (.httpError 403 "API rate limit exceeded") =
      .error (.httpError 403 "API rate limit exceeded") ∧
    GhError.httpError 403 "API rate limit exceeded" ≠ GhError.rateLimited ∧
    ghGetFileR (.httpError 500 "Internal Server Error") =
      .error (.httpError 500 "Internal Server Error") ∧
    GhError.httpError 500 "Internal Server Error" ≠ GhError.transportError :=
  ⟨rfl, by decide, rfl, by decide⟩

/-- C4: when the cache guard fails (stale or empty cache) and the HTTP GET
returns any status other than 200 — a 404 or a transient server error
alike, since the code only tests `r.status === 200` — `GitHubStore.read`
writes the default database `{ users: [], shops: [], entries: {} }` to
the backing file (here in the case where the conditional PUT is accepted
because the remembered `lastSha` matches the file's current sha) and
returns that default: a read can overwrite existing remote content with
the empty default. -/
theorem read_non200_overwrites_with_default (st : Store) (rm : SingleRemote)
    (now : Nat) (resp : GetResp) (s : Nat) (b : Blob)
    (hstale : cacheFresh st now = false)
    (hresp : resp = GetResp.notFound ∨ ∃ s2 b2, resp = GetResp.httpError s2 b2)
    (hsha : st.lastSha = some s) (hfile : rm.file = some (b, s)) :
    GitHubStore.readR resp st rm now =
      .ok (initDb, ⟨some rm.nextSha, some initDb, now⟩,
        ⟨some (.json initDb, rm.nextSha), rm.nextSha + 1⟩) := by
  have hw : GitHubStore.write initDb st rm now =
      .ok (initDb, ⟨some rm.nextSha, some initDb, now⟩,
        ⟨some (.json initDb, rm.nextSha), rm.nextSha + 1⟩) := by
    unfold GitHubStore.write servePut1
    rw [hfile, hsha]
    simp
  have hfetch : GitHubStore.readFetch resp st rm now =
      .ok (initDb, ⟨some rm.nextSha, some initDb, now⟩,
        ⟨some (.json initDb, rm.nextSha), rm.nextSha + 1⟩) := by
    rcases hresp with h | ⟨s2, b2, h⟩ <;> subst h <;>
      simp [GitHubStore.readFetch, hw]
  unfold GitHubStore.readR
  cases hc : st.cache with
  | none => exact hfetch
  | some c =>
    have : (decide (now - st.cacheTs < 5000) && jsTruthy c) = false := by
      have := hstale
      unfold cacheFresh at this
      rw [hc] at this
      exact this
    simp [this, hfetch]

/-- C4 witness: a remote file holding real data is replaced by the empty
default database by a mere read that saw a 500 response. -/
theorem read_non200_overwrites_with_default_witness :
    GitHubStore.readR (.httpError 500 "boom") ⟨some 7, none, 0⟩
        ⟨some (.json (.obj [("users", .arr [.str "u"])]), 7), 8⟩ 9999 =
      .ok (initDb, ⟨some 8, some initDb, 9999⟩,
        ⟨some (.json initDb, 8), 9⟩) :=
  read_non200_overwrites_with_default ⟨some 7, none, 0⟩
    ⟨some (.json (.obj [("users", .arr [.str "u"])]), 7), 8⟩ 9999
    (.httpError 500 "boom") 7 (.json (.obj [("users", .arr [.str "u"])]))
    rfl (Or.inr ⟨500, "boom", rfl⟩) rfl rfl

/-- C5: immediately after a successful `GitHubStore.write`, a subsequent
`GitHubStore.read` — at any later time — returns exactly the
just-written data: the write replaces the cache entry with the written
data, and after the cache TTL expires the refetch sees the newly
committed file. -/
theorem read_after_write_returns_written (d : Json) (st : Store)
    (rm : SingleRemote) (now t : Nat) (d' : Json) (st' : Store)
    (rm' : SingleRemote)
    (h : GitHubStore.write d st rm now = .ok (d', st', rm')) :
    ∃ st2 rm2, GitHubStore.read st' rm' t = .ok (d, st2, rm2) := by
  obtain ⟨hd, hst, hrm⟩ := GitHubStore.write_ok h
  subst hst hrm
  unfold GitHubStore.read GitHubStore.readR
  cases hfresh : decide (t - now < 5000) && jsTruthy d with
  | true =>
    exact ⟨⟨some rm.nextSha, some d, now⟩,
      ⟨some (.json d, rm.nextSha), rm.nextSha + 1⟩, by simp [hfresh]⟩
  | false =>
    exact ⟨⟨some rm.nextSha, some d, t⟩,
      ⟨some (.json d, rm.nextSha), rm.nextSha + 1⟩,
      by simp [hfresh, GitHubStore.readFetch, serveGet1, decodeBuf]⟩

/-- C5 witness: a concrete write followed by a read well past the cache
TTL still returns the written value. -/
theorem read_after_write_returns_written_witness :
    ∃ st2 rm2, GitHubStore.read ⟨some 1, some (.num 5), 5⟩
        ⟨some (.json (.num 5), 1), 2⟩ 9999 = .ok (.num 5, st2, rm2) :=
  read_after_write_returns_written (.num 5) ⟨none, none, 0⟩ ⟨none, 1⟩ 5 9999
    (.num 5) ⟨some 1, some (.num 5), 5⟩ ⟨some (.json (.num 5), 1), 2⟩ rfl

/-- Sorting view of `listEntryDates`: it is the ascending sort of the raw
stripped keys, reversed. -/
theorem listEntryDates_eq_sort (rm : Remote) (shopId : String) :
    listEntryDates rm shopId =
      ((entryKeysRaw rm shopId).insertionSort (· ≤ ·)).reverse := by
  unfold listEntryDates entryKeysRaw
  cases h : ghGetFile rm ("data/entries/" ++ shopId) with
  | error e => simp [List.insertionSort]
  | ok g =>
    cases g with
    | none => simp [List.insertionSort]
    | some got =>
      cases got with
      | file sha b => simp [List.insertionSort]
      | dir es => simp

/-- C7 amended: `listEntryDates` always returns a list sorted by key in
descending order, and returns `[]` (not an error) when the entries
directory is absent; the keys are pairwise distinct whenever stripping
the first `".json"` occurrence is injective on the listed file names
(which holds for the `YYYY-MM-DD.json` names the application writes) —
but not in general, since `replace('.json','')` removes the first
occurrence, not the suffix (see the counterexample). -/
theorem listEntryDates_sorted_desc (rm : Remote) (shopId : String) :
    List.Sorted (· ≥ ·) (listEntryDates rm shopId) ∧
    (serveGet rm ("data/entries/" ++ shopId) = .notFound →
      listEntryDates rm shopId = []) ∧
    ((entryKeysRaw rm shopId).Nodup → (listEntryDates rm shopId).Nodup) := by
  refine ⟨?_, ?_, ?_⟩
  · rw [listEntryDates_eq_sort]
    exact List.pairwise_reverse.mpr
      (List.sorted_insertionSort (· ≤ ·) (entryKeysRaw rm shopId))
  · intro h
    unfold listEntryDates ghGetFile
    rw [h]
    simp [ghGetFileR]
  · intro hnd
    rw [listEntryDates_eq_sort, List.nodup_reverse]
    exact ((List.perm_insertionSort (· ≤ ·) (entryKeysRaw rm shopId)).nodup_iff).mpr hnd

/-- C7 witness: on ordinary date-named files the listing is
duplicate-free, and an absent entries directory yields `[]`. -/
theorem listEntryDates_sorted_desc_witness :
    (listEntryDates ⟨[("data/entries/s/2025-01-10.json", .json .null, 0),
        ("data/entries/s/2025-01-11.json", .json .null, 1)], 2⟩ "s").Nodup ∧
    listEntryDates ⟨[], 0⟩ "s" = [] :=
  ⟨(listEntryDates_sorted_desc ⟨[("data/entries/s/2025-01-10.json", .json .null, 0),
      ("data/entries/s/2025-01-11.json", .json .null, 1)], 2⟩ "s").2.2 (by decide),
   (listEntryDates_sorted_desc ⟨[], 0⟩ "s").2.1 rfl⟩

/-- C7 counterexample: two distinct file names in the entries directory,
`a.jsonb.json` and `ab.json.json`, both end in `.json` but strip (first
occurrence of `".json"` removed, as `name.replace('.json','')` does) to
the same key `ab.json`, so `listEntryDates` returns a list with
duplicate keys, contradicting the claim that the result never contains
duplicates. -/
theorem listEntryDates_duplicates_counterexample :
    ¬ (listEntryDates ⟨[("data/entries/s/a.jsonb.json", .json .null, 0),
        ("data/entries/s/ab.json.json", .json .null, 1)], 2⟩ "s").Nodup := by
  have hk : entryKeysRaw ⟨[("data/entries/s/a.jsonb.json", .json .null, 0),
      ("data/entries/s/ab.json.json", .json .null, 1)], 2⟩ "s" =
      ["ab.json", "ab.json"] := by decide
  rw [listEntryDates_eq_sort, hk]
  simp [List.insertionSort, List.orderedInsert]

/-- C8: when the shop index `data/shops.json` is absent, the first
`getAllShops` creates a one-entry index holding a single default shop
(with the fresh `nanoid` id and the configured default name) together
with the default template document at `data/templates/{id}.json`, and
returns that one-entry array; a subsequent `getAllShops` returns exactly
the same one-entry array and leaves the remote unchanged. The hypothesis
that the fresh template path differs from the index path is always met
by the concrete paths. -/
theorem getAllShops_bootstrap (rm : Remote) (freshId shopName : String)
    (habs : serveGet rm "data/shops.json" = .notFound)
    (hne : "data/templates/" ++ freshId ++ ".json" ≠ "data/shops.json") :
    ∃ rm3 : Remote,
      getAllShops rm freshId shopName =
        .ok (.arr [defaultShopJson freshId shopName], rm3) ∧
      (∃ sh1, lookupFile rm3 "data/shops.json" =
        some (.json (.arr [defaultShopJson freshId shopName]), sh1)) ∧
      (∃ sh2, lookupFile rm3 ("data/templates/" ++ freshId ++ ".json") =
        some (.json defaultTemplate, sh2)) ∧
      ∀ id2 name2, getAllShops rm3 id2 name2 =
        .ok (.arr [defaultShopJson freshId shopName], rm3) := by
  refine ⟨setFile (setFile (setFile rm "data/shops.json" (.json (.arr [])))
      "data/shops.json" (.json (.arr [defaultShopJson freshId shopName])))
      ("data/templates/" ++ freshId ++ ".json") (.json defaultTemplate),
    ?_, ?_, ?_, ?_⟩
  · unfold getAllShops
    rw [ghEnsureJson_absent (Json.arr []) habs]
    simp [jsonArrEmpty, jsonArrPush, ghPutFile_ok]
  · refine ⟨(setFile rm "data/shops.json" (.json (.arr []))).nextSha, ?_⟩
    rw [lookupFile_setFile_ne _ _ _ _ (Ne.symm hne)]
    exact lookupFile_setFile_self _ "data/shops.json"
      (.json (.arr [defaultShopJson freshId shopName]))
  · exact ⟨_, lookupFile_setFile_self _ _ (.json defaultTemplate)⟩
  · intro id2 name2
    unfold getAllShops
    rw [ghEnsureJson_parsed (Json.arr []) (by
      rw [lookupFile_setFile_ne _ _ _ _ (Ne.symm hne)]
      exact lookupFile_setFile_self _ "data/shops.json"
        (.json (.arr [defaultShopJson freshId shopName])))]
    simp [jsonArrEmpty]

/-- C8 witness: bootstrap from an empty remote with a concrete fresh id. -/
theorem getAllShops_bootstrap_witness :
    ∃ rm3, getAllShops ⟨[], 0⟩ "Ab12Cd34" "City" =
      .ok (.arr [defaultShopJson "Ab12Cd34" "City"], rm3) := by
  obtain ⟨rm3, h1, _, _, _⟩ :=
    getAllShops_bootstrap ⟨[], 0⟩ "Ab12Cd34" "City" rfl (by decide)
  exact ⟨rm3, h1⟩
